import Mathlib

/-!
Shallow embedding of the upstream host-selection core (load balancer) of this
repository: panic detection, priority selection, locality-aware routing, and
the round-robin / least-request / random selection policies, plus the subset
configuration value object.

The repository tree holds the header `src/source/common/upstream/load_balancer_impl.h`
(which contains `LoadBalancerSubsetInfoImpl` inline) and the unit tests
`src/test/common/upstream/load_balancer_impl_test.cc`. The implementation file
`load_balancer_impl.cc` is not in the tree, so the balancer bodies below are
modelled from the specification, with the repository's unit tests taken as the
authority wherever they pin an observable detail. Randomness is embedded as a
fixed 64-bit-style generator `r : Nat → Nat` together with a cursor `k : Nat`
that counts consumed draws; stat counters are threaded explicitly.
-/

namespace Upstream

/-- A backend host: opaque identity alongside the configured weight and the
active-request gauge that the balancer reads through the host's stat handle. -/
structure Host where
  id : Nat
  weight : Nat
  active : Nat
deriving DecidableEq

instance : Inhabited Host := ⟨⟨0, 1, 0⟩⟩

/-- The hosts at a single priority level, with the three parallel views
(`hosts`, `healthy_hosts`, `healthy_hosts_per_locality`) that the membership
subsystem exposes; the first locality is the local one. -/
structure HostSet where
  hosts : List Host
  healthy_hosts : List Host
  healthy_hosts_per_locality : List (List Host)
deriving DecidableEq

instance : Inhabited HostSet := ⟨⟨[], [], []⟩⟩

/-- Runtime configuration snapshot restricted to the four keys the balancer
reads. A `none` entry means the key is absent so the documented default
applies; `zone_routing_enabled` is the boolean outcome of the percentage
feature gate `upstream.zone_routing.enabled`. -/
structure Runtime where
  healthy_panic_threshold : Option Nat
  zone_routing_enabled : Bool
  min_cluster_size : Option Nat
  weight_enabled : Option Nat
deriving DecidableEq

/-- `snapshot().getInteger(key, default)`: the stored value if present, else the
caller-supplied default. -/
def getInteger (v : Option Nat) (d : Nat) : Nat := v.getD d

/-- The cluster stat counters written by the balancer, plus the
`max_host_weight` gauge it reads (maintained by the membership subsystem). -/
structure ClusterStats where
  lb_healthy_panic : Nat
  lb_zone_cluster_too_small : Nat
  lb_zone_number_differs : Nat
  lb_local_cluster_not_ok : Nat
  lb_zone_routing_all_directly : Nat
  lb_zone_routing_sampled : Nat
  lb_zone_routing_cross_zone : Nat
  lb_zone_no_capacity_left : Nat
  max_host_weight : Nat
deriving DecidableEq

/-- Modelled from the spec: `LoadBalancerUtility::isGlobalPanic` (declared in
load_balancer_impl.h, body in the absent load_balancer_impl.cc). Reads
`upstream.healthy_panic_threshold` (default 50) clamped to at most 100, and
reports panic iff the set is non-empty and the truncated healthy percentage
`100 * h / n` is strictly below the threshold. -/
def isGlobalPanic (host_set : HostSet) (runtime : Runtime) : Bool :=
  let threshold := min 100 (getInteger runtime.healthy_panic_threshold 50)
  decide (host_set.hosts.length ≠ 0) &&
    decide (100 * host_set.healthy_hosts.length / host_set.hosts.length < threshold)

/-- Per-priority locality routing state: off, all-local, or residual routing
with the precomputed percent-to-route-locally (scaled by 100, in [0, 10000])
and the cumulative residual capacities of the remote localities. -/
inductive LocalityRoutingState where
  | NoLocalityRouting
  | LocalityDirect
  | LocalityResidual (local_percent_to_route : Nat) (residual_capacity : List Nat)
deriving DecidableEq

/-- Modelled from the spec: `calculateLocalityPercentage` (body in the absent
load_balancer_impl.cc). For each locality the share of hosts scaled by 10000
with truncating division; the total is the sum over the locality vectors. -/
def calculateLocalityPercentage (hosts_per_locality : List (List Host)) : List Nat :=
  let total := (hosts_per_locality.map List.length).sum
  hosts_per_locality.map fun locality => 10000 * locality.length / total

/-- Running totals of a list of residuals: entry `i` is the sum of the first
`i + 1` residuals, so the last entry is the grand total. -/
def accumulateResiduals : Nat → List Nat → List Nat
  | _, [] => []
  | acc, x :: rest => (acc + x) :: accumulateResiduals (acc + x) rest

/-- Modelled from the spec: `regenerateLocalityRoutingStructures` for one
priority (body in the absent load_balancer_impl.cc). Early exits in the
documented order, then the direct/residual decision over the scaled locality
percentages. One departure from the spec's words is forced by the repository's
own test suite: the residual of remote locality `i` is
`max(0, upstream_pct[i] - local_pct[i])`; the spec's formula
`max(0, upstream_pct[i] - local_pct[i]*upstream_pct[0]/local_pct[0])` would
leave residual capacity 2 (instead of 0) in
`RoundRobinLoadBalancerTest.LowPrecisionForDistribution` and that test's
`lb_zone_no_capacity_left` expectation would fail. Natural subtraction
performs the `max(0, ·)`. -/
def regenerateLocalityRoutingStructures (u : HostSet) (local_set : Option HostSet)
    (rt : Runtime) (st : ClusterStats) : LocalityRoutingState × ClusterStats :=
  match local_set with
  | none => (.NoLocalityRouting, st)
  | some l =>
    if u.healthy_hosts_per_locality.length < 2 then (.NoLocalityRouting, st)
    else if !rt.zone_routing_enabled then (.NoLocalityRouting, st)
    else if isGlobalPanic u rt then (.NoLocalityRouting, st)
    else if u.healthy_hosts.length < getInteger rt.min_cluster_size 6 then
      (.NoLocalityRouting,
       { st with lb_zone_cluster_too_small := st.lb_zone_cluster_too_small + 1 })
    else if u.healthy_hosts_per_locality.length ≠ l.healthy_hosts_per_locality.length then
      (.NoLocalityRouting,
       { st with lb_zone_number_differs := st.lb_zone_number_differs + 1 })
    else if isGlobalPanic l rt || l.hosts.isEmpty then
      (.NoLocalityRouting,
       { st with lb_local_cluster_not_ok := st.lb_local_cluster_not_ok + 1 })
    else
      let upstream_pct := calculateLocalityPercentage u.healthy_hosts_per_locality
      let local_pct := calculateLocalityPercentage l.healthy_hosts_per_locality
      if local_pct.getD 0 0 ≤ upstream_pct.getD 0 0 then (.LocalityDirect, st)
      else
        let lptr := 10000 * upstream_pct.getD 0 0 / local_pct.getD 0 0
        let residuals := (List.range (u.healthy_hosts_per_locality.length - 1)).map fun i =>
          upstream_pct.getD (i + 1) 0 - local_pct.getD (i + 1) 0
        (.LocalityResidual lptr (accumulateResiduals 0 residuals), st)

/-- The residual-capacity vector computed with the formula exactly as the
spec's words state it — `residual_i = max(0, upstream_pct[i] -
local_pct[i] * upstream_pct[0] / local_pct[0])`, accumulated — kept as a
separate definition so it can be compared against the behaviour the
repository's tests force on the code model above. -/
def specResidualCapacity (upstream_pct local_pct : List Nat) : List Nat :=
  accumulateResiduals 0 ((List.range (upstream_pct.length - 1)).map fun i =>
    upstream_pct.getD (i + 1) 0 -
      local_pct.getD (i + 1) 0 * upstream_pct.getD 0 0 / local_pct.getD 0 0)

/-- Modelled from the spec: the priority walk behind `best_available_host_set_`
(body in the absent load_balancer_impl.cc): the first priority whose
`healthy_hosts` is non-empty, `none` when every priority is fully unhealthy. -/
def bestAvailableAux : List HostSet → Option Nat
  | [] => none
  | hs :: rest =>
    if hs.healthy_hosts.isEmpty then (bestAvailableAux rest).map (· + 1) else some 0

/-- The effective priority: the first priority with a healthy host, falling
back to priority 0 when none has any. -/
def bestAvailablePriority (ps : List HostSet) : Nat := (bestAvailableAux ps).getD 0

/-- The host set the balancer draws from (`best_available_host_set_`). -/
def bestAvailableHostSet (ps : List HostSet) : HostSet :=
  ps.getD (bestAvailablePriority ps) default

/-- Modelled from the spec: the membership-update path recomputes the locality
routing state for every priority, threading the stat counters through. -/
def regenerateAll : List HostSet → Option HostSet → Runtime → ClusterStats →
    List LocalityRoutingState × ClusterStats
  | [], _, _, st => ([], st)
  | u :: rest, l, rt, st =>
    let (s1, st1) := regenerateLocalityRoutingStructures u l rt st
    let (srest, st2) := regenerateAll rest l rt st1
    (s1 :: srest, st2)

/-- Modelled from the spec: `tryChooseLocalLocalityHosts` in the residual state
(body in the absent load_balancer_impl.cc). First draw: stay local when
`r1 < local_percent_to_route`. Otherwise a second draw is taken (the test
`LowPrecisionForDistribution` consumes it even when no capacity is left), the
zero-total fallback returns the flat healthy list, and otherwise the smallest
index whose cumulative residual exceeds the sample picks remote locality
`i + 1`. -/
def tryChooseLocalLocalityHosts (hs : HostSet) (lptr : Nat) (caps : List Nat)
    (st : ClusterStats) (r : Nat → Nat) (k : Nat) : List Host × ClusterStats × Nat :=
  if r k % 10000 < lptr then
    (hs.healthy_hosts_per_locality.getD 0 [],
     { st with lb_zone_routing_sampled := st.lb_zone_routing_sampled + 1 }, k + 1)
  else if caps.getD (caps.length - 1) 0 = 0 then
    (hs.healthy_hosts,
     { st with lb_zone_no_capacity_left := st.lb_zone_no_capacity_left + 1 }, k + 2)
  else
    (hs.healthy_hosts_per_locality.getD
       ((caps.findIdx fun c => r (k + 1) % caps.getD (caps.length - 1) 0 < c) + 1) [],
     { st with lb_zone_routing_cross_zone := st.lb_zone_routing_cross_zone + 1 }, k + 2)

/-- Modelled from the spec: `LoadBalancerBase::hostsToUse` (body in the absent
load_balancer_impl.cc). Empty set short-circuits; panic returns all hosts and
bumps `lb_healthy_panic`; otherwise the precomputed locality state of the best
available priority decides between the flat healthy list, the local locality,
or residual sampling — with the per-request re-check of the zone-routing
feature gate. -/
def hostsToUse (ps : List HostSet) (states : List LocalityRoutingState) (rt : Runtime)
    (st : ClusterStats) (r : Nat → Nat) (k : Nat) : List Host × ClusterStats × Nat :=
  if (bestAvailableHostSet ps).hosts.isEmpty then ([], st, k)
  else if isGlobalPanic (bestAvailableHostSet ps) rt then
    ((bestAvailableHostSet ps).hosts,
     { st with lb_healthy_panic := st.lb_healthy_panic + 1 }, k)
  else
    match states.getD (bestAvailablePriority ps) .NoLocalityRouting with
    | .NoLocalityRouting => ((bestAvailableHostSet ps).healthy_hosts, st, k)
    | .LocalityDirect =>
      if !rt.zone_routing_enabled then ((bestAvailableHostSet ps).healthy_hosts, st, k)
      else
        ((bestAvailableHostSet ps).healthy_hosts_per_locality.getD 0 [],
         { st with lb_zone_routing_all_directly := st.lb_zone_routing_all_directly + 1 }, k)
    | .LocalityResidual lptr caps =>
      if !rt.zone_routing_enabled then ((bestAvailableHostSet ps).healthy_hosts, st, k)
      else tryChooseLocalLocalityHosts (bestAvailableHostSet ps) lptr caps st r k

/-- Modelled from the spec: `RoundRobinLoadBalancer::chooseHost` (body in the
absent load_balancer_impl.cc). Returns `list[rr_index++ mod |list|]` over the
substrate's candidate list, `none` when it is empty; the returned tuple is
(result, stats, random cursor, new rr_index). -/
def rrChooseHost (ps : List HostSet) (states : List LocalityRoutingState) (rt : Runtime)
    (st : ClusterStats) (r : Nat → Nat) (k : Nat) (rr : Nat) :
    Option Host × ClusterStats × Nat × Nat :=
  let (list, st1, k1) := hostsToUse ps states rt st r k
  if list.length = 0 then (none, st1, k1, rr)
  else (some (list.getD (rr % list.length) default), st1, k1, rr + 1)

/-- `n` successive round-robin calls, collecting the returned hosts and
threading stats, the random cursor, and `rr_index`. -/
def rrRun : Nat → List HostSet → List LocalityRoutingState → Runtime → ClusterStats →
    (Nat → Nat) → Nat → Nat → List (Option Host) × ClusterStats × Nat × Nat
  | 0, _, _, _, st, _, k, rr => ([], st, k, rr)
  | n + 1, ps, states, rt, st, r, k, rr =>
    let (h, st1, k1, rr1) := rrChooseHost ps states rt st r k rr
    let (rest, st2, k2, rr2) := rrRun n ps states rt st1 r k1 rr1
    (h :: rest, st2, k2, rr2)

/-- The policy-local state of the weighted least-request balancer. -/
structure LRState where
  last_host : Option Host
  hits_left : Nat
deriving DecidableEq

/-- Modelled from the spec: the membership-change callback of
`LeastRequestLoadBalancer` unconditionally clears the sticky state. -/
def lrMembershipChange (_s : LRState) : LRState := ⟨none, 0⟩

/-- Modelled from the spec: the selection step of
`LeastRequestLoadBalancer::chooseHost` on the substrate's candidate list (body
in the absent load_balancer_impl.cc). Equal-weight mode (`max_host_weight ≤ 1`
or runtime `upstream.weight_enabled` = 0) is power-of-two-choices: two
independent draws, collisions kept, the strictly smaller active-request count
wins. Two details are pinned by the repository's tests rather than the spec's
words: a singleton list still takes both draws
(`LeastRequestLoadBalancerTest.SingleHost`), and a tie yields the
second-drawn host (`LeastRequestLoadBalancerTest.Normal`). Weighted mode
returns the sticky `last_host` while `hits_left > 0` and it is still in the
list, consuming no draw; otherwise one draw picks the new sticky host with
`hits_left = weight - 1`. -/
def lrSelect (list : List Host) (max_host_weight : Nat) (rt : Runtime) (r : Nat → Nat)
    (k : Nat) (s : LRState) : Option Host × LRState × Nat :=
  if list.length = 0 then (none, s, k)
  else if max_host_weight ≤ 1 ∨ getInteger rt.weight_enabled 1 = 0 then
    let h1 := list.getD (r k % list.length) default
    let h2 := list.getD (r (k + 1) % list.length) default
    (some (if h1.active < h2.active then h1 else h2), s, k + 2)
  else
    match s.last_host with
    | some h =>
      if 0 < s.hits_left ∧ h ∈ list then (some h, ⟨some h, s.hits_left - 1⟩, k)
      else
        let h2 := list.getD (r k % list.length) default
        (some h2, ⟨some h2, h2.weight - 1⟩, k + 1)
    | none =>
      let h2 := list.getD (r k % list.length) default
      (some h2, ⟨some h2, h2.weight - 1⟩, k + 1)

/-- Modelled from the spec: `LeastRequestLoadBalancer::chooseHost` — the
substrate call followed by the selection step; the tuple is (result, stats,
random cursor, new sticky state). -/
def lrChooseHost (ps : List HostSet) (states : List LocalityRoutingState) (rt : Runtime)
    (st : ClusterStats) (r : Nat → Nat) (k : Nat) (s : LRState) :
    Option Host × ClusterStats × Nat × LRState :=
  let (list, st1, k1) := hostsToUse ps states rt st r k
  let (res, s1, k2) := lrSelect list st1.max_host_weight rt r k1 s
  (res, st1, k2, s1)

/-- `n` successive least-request calls, collecting the returned hosts and
threading stats, the random cursor, and the sticky state. -/
def lrRun : Nat → List HostSet → List LocalityRoutingState → Runtime → ClusterStats →
    (Nat → Nat) → Nat → LRState → List (Option Host) × ClusterStats × Nat × LRState
  | 0, _, _, _, st, _, k, s => ([], st, k, s)
  | n + 1, ps, states, rt, st, r, k, s =>
    let (h, st1, k1, s1) := lrChooseHost ps states rt st r k s
    let (rest, st2, k2, s2) := lrRun n ps states rt st1 r k1 s1
    (h :: rest, st2, k2, s2)

/-- Modelled from the spec: `RandomLoadBalancer::chooseHost` (body in the
absent load_balancer_impl.cc): a uniform pick over the substrate's candidate
list, `none` when it is empty. -/
def randomChooseHost (ps : List HostSet) (states : List LocalityRoutingState) (rt : Runtime)
    (st : ClusterStats) (r : Nat → Nat) (k : Nat) : Option Host × ClusterStats × Nat :=
  let (list, st1, k1) := hostsToUse ps states rt st r k
  if list.length = 0 then (none, st1, k1)
  else (some (list.getD (r k1 % list.length) default), st1, k1 + 1)

/-- The documented invariants of a host set: healthy hosts are hosts, and every
per-locality healthy list is drawn from the healthy hosts. -/
def HostSetWF (hs : HostSet) : Prop :=
  (∀ x ∈ hs.healthy_hosts, x ∈ hs.hosts) ∧
    (∀ l ∈ hs.healthy_hosts_per_locality, ∀ x ∈ l, x ∈ hs.healthy_hosts)

instance (hs : HostSet) : Decidable (HostSetWF hs) := by
  unfold HostSetWF; infer_instance

/-- The closure property of a policy result: no host, or a host present in
some host set of the priority set. -/
def inSomeHostSet (res : Option Host) (ps : List HostSet) : Prop :=
  match res with
  | none => True
  | some h => ∃ hs ∈ ps, h ∈ hs.hosts

instance (res : Option Host) (ps : List HostSet) : Decidable (inSomeHostSet res ps) := by
  unfold inSomeHostSet; cases res <;> infer_instance

/-- The fallback policy enum of the subset configuration. -/
inductive LbSubsetFallbackPolicy where
  | NO_FALLBACK
  | ANY_ENDPOINT
  | DEFAULT_SUBSET
deriving DecidableEq

/-- A configured subset selector: its list of metadata keys. -/
structure LbSubsetSelector where
  keys : List String
deriving DecidableEq

/-- The `LbSubsetConfig` protobuf message as far as the value object reads it;
the default subset is an opaque key-to-value structure. -/
structure LbSubsetConfig where
  subset_selectors : List LbSubsetSelector
  fallback_policy : LbSubsetFallbackPolicy
  default_subset : List (String × String)
deriving DecidableEq

/-- The immutable subset-info snapshot (`LoadBalancerSubsetInfoImpl` in
load_balancer_impl.h). -/
structure LoadBalancerSubsetInfoImpl where
  enabled : Bool
  fallback_policy : LbSubsetFallbackPolicy
  default_subset : List (String × String)
  subset_keys : List (Finset String)
deriving DecidableEq

/-- The constructor's loop over the configured selectors: each selector with a
non-empty key list contributes the set of its keys, in order; empty selectors
are skipped. -/
def buildSubsetKeys : List LbSubsetSelector → List (Finset String)
  | [] => []
  | s :: rest =>
    if s.keys.isEmpty then buildSubsetKeys rest
    else s.keys.toFinset :: buildSubsetKeys rest

/-- The `LoadBalancerSubsetInfoImpl` constructor (load_balancer_impl.h lines
184-194): enabled iff some selector is configured, fallback policy and default
subset mirrored verbatim, and the subset keys built by the selector loop. -/
def loadBalancerSubsetInfoImpl (cfg : LbSubsetConfig) : LoadBalancerSubsetInfoImpl :=
  ⟨!cfg.subset_selectors.isEmpty, cfg.fallback_policy, cfg.default_subset,
   buildSubsetKeys cfg.subset_selectors⟩

/-- `isEnabled()` accessor. -/
def LoadBalancerSubsetInfoImpl.isEnabled (x : LoadBalancerSubsetInfoImpl) : Bool := x.enabled

/-- `fallbackPolicy()` accessor. -/
def LoadBalancerSubsetInfoImpl.fallbackPolicy (x : LoadBalancerSubsetInfoImpl) :
    LbSubsetFallbackPolicy := x.fallback_policy

/-- `defaultSubset()` accessor. -/
def LoadBalancerSubsetInfoImpl.defaultSubset (x : LoadBalancerSubsetInfoImpl) :
    List (String × String) := x.default_subset

/-- `subsetKeys()` accessor. -/
def LoadBalancerSubsetInfoImpl.subsetKeys (x : LoadBalancerSubsetInfoImpl) :
    List (Finset String) := x.subset_keys

/-! Concrete fixtures mirroring the unit-test scenarios of
load_balancer_impl_test.cc, used to instantiate the theorems. -/

/-- A healthy-looking host of weight 1 with no active requests, identified by
its port number, as `makeTestHost` builds them. -/
def tHost (n : Nat) : Host := ⟨n, 1, 0⟩

/-- Fresh stats with `max_host_weight` 1. -/
def tStats : ClusterStats := ⟨0, 0, 0, 0, 0, 0, 0, 0, 1⟩

/-- Fresh stats with `max_host_weight` 3 (the weight-imbalance tests). -/
def tStats3 : ClusterStats := ⟨0, 0, 0, 0, 0, 0, 0, 0, 3⟩

/-- Default runtime: every key absent, zone-routing gate off. -/
def tRuntime : Runtime := ⟨none, false, none, none⟩

/-- Runtime of the small-zone test: gate on, `min_cluster_size` 5. -/
def tZoneRuntime : Runtime := ⟨none, true, some 5, none⟩

/-- MaxUnhealthyPanic: six hosts, two healthy. -/
def tPanicSet : HostSet :=
  ⟨[tHost 80, tHost 81, tHost 82, tHost 83, tHost 84, tHost 85],
   [tHost 80, tHost 81], []⟩

/-- Two healthy hosts. -/
def tPairSet : HostSet := ⟨[tHost 80, tHost 81], [tHost 80, tHost 81], []⟩

/-- Two healthy hosts with active-request counts 1 and 2. -/
def tPairActiveSet : HostSet :=
  ⟨[⟨80, 1, 1⟩, ⟨81, 1, 2⟩], [⟨80, 1, 1⟩, ⟨81, 1, 2⟩], []⟩

/-- A single healthy host. -/
def tSingleSet : HostSet := ⟨[tHost 80], [tHost 80], []⟩

/-- WeightImbalance: hosts of weight 1 and 3. -/
def tWeightSet : HostSet :=
  ⟨[⟨80, 1, 0⟩, ⟨81, 3, 0⟩], [⟨80, 1, 0⟩, ⟨81, 3, 0⟩], []⟩

/-- BasicFailover: priority 0 fully unhealthy, priority 1 healthy. -/
def tFailoverPS : List HostSet :=
  [⟨[tHost 80], [], []⟩, ⟨[tHost 82], [tHost 82], []⟩]

/-- The same priority set after a healthy host is restored at priority 0. -/
def tFailoverRestoredPS : List HostSet :=
  [⟨[tHost 80], [tHost 80], []⟩, ⟨[tHost 82], [tHost 82], []⟩]

/-- ZoneAwareRoutingSmallZone upstream set: healthy hosts split (1, 2, 2)
across three localities. -/
def tUpstreamSmallZone : HostSet :=
  ⟨[tHost 80, tHost 81, tHost 82, tHost 83, tHost 84],
   [tHost 80, tHost 81, tHost 82, tHost 83, tHost 84],
   [[tHost 81], [tHost 80, tHost 82], [tHost 83, tHost 84]]⟩

/-- ZoneAwareRoutingSmallZone local set: hosts split (1, 1, 1). -/
def tLocalSmallZone : HostSet :=
  ⟨[tHost 0, tHost 1, tHost 2], [tHost 0, tHost 1, tHost 2],
   [[tHost 0], [tHost 1], [tHost 2]]⟩

/-- The scripted random sequence of the small-zone test: 100, 9999, 2. -/
def tRandSmallZone : Nat → Nat := fun n => [100, 9999, 2].getD n 0

/-! Helper lemmas shared by the claim theorems. -/

theorem list_getD_mem {α : Type} : ∀ (l : List α) (i : Nat) (d : α),
    i < l.length → l.getD i d ∈ l := by
  intro l
  induction l with
  | nil => intro i d h; simp at h
  | cons x xs ih =>
    intro i d h
    cases i with
    | zero => simp [List.getD_cons_zero]
    | succ n =>
      simp only [List.getD_cons_succ]
      exact List.mem_cons_of_mem _ (ih n d (by simpa using h))

theorem mem_of_mem_getD {α : Type} : ∀ (L : List (List α)) (i : Nat) (x : α),
    x ∈ L.getD i [] → ∃ l, l ∈ L ∧ x ∈ l := by
  intro L
  induction L with
  | nil => intro i x hx; cases i <;> simp [List.getD] at hx
  | cons a as ih =>
    intro i x hx
    cases i with
    | zero => exact ⟨a, List.mem_cons_self _ _, by simpa [List.getD_cons_zero] using hx⟩
    | succ n =>
      obtain ⟨l, hl, hxl⟩ := ih n x (by simpa [List.getD_cons_succ] using hx)
      exact ⟨l, List.mem_cons_of_mem _ hl, hxl⟩

theorem bestAvailableAux_eq_of_first_healthy :
    ∀ (ps : List HostSet) (p : Nat), p < ps.length →
      (ps.getD p default).healthy_hosts ≠ [] →
      (∀ q : Nat, q < p → (ps.getD q default).healthy_hosts = []) →
      bestAvailableAux ps = some p := by
  intro ps
  induction ps with
  | nil => intro p hp _ _; simp at hp
  | cons hs rest ih =>
    intro p hp hne hz
    cases p with
    | zero =>
      have : hs.healthy_hosts ≠ [] := by simpa [List.getD_cons_zero] using hne
      simp [bestAvailableAux, List.isEmpty_iff, this]
    | succ n =>
      have h0 : hs.healthy_hosts = [] := by
        simpa [List.getD_cons_zero] using hz 0 (Nat.succ_pos n)
      have hrec := ih n (by simpa using hp)
        (by simpa [List.getD_cons_succ] using hne)
        (fun q hq => by simpa [List.getD_cons_succ] using hz (q + 1) (Nat.succ_lt_succ hq))
      simp [bestAvailableAux, List.isEmpty_iff, h0, hrec]

theorem bestAvailableAux_eq_none_of_all_unhealthy :
    ∀ ps : List HostSet, (∀ hs ∈ ps, hs.healthy_hosts = []) →
      bestAvailableAux ps = none := by
  intro ps
  induction ps with
  | nil => intro _; rfl
  | cons hs rest ih =>
    intro h
    have h0 : hs.healthy_hosts = [] := h hs (List.mem_cons_self _ _)
    simp [bestAvailableAux, List.isEmpty_iff, h0, ih fun x hx => h x (List.mem_cons_of_mem _ hx)]

theorem bestAvailableAux_lt_length :
    ∀ (ps : List HostSet) (i : Nat), bestAvailableAux ps = some i → i < ps.length := by
  intro ps
  induction ps with
  | nil => intro i h; simp [bestAvailableAux] at h
  | cons hs rest ih =>
    intro i h
    unfold bestAvailableAux at h
    by_cases he : hs.healthy_hosts.isEmpty
    · rw [if_pos he] at h
      cases hr : bestAvailableAux rest with
      | none => rw [hr] at h; simp at h
      | some j =>
        rw [hr] at h
        simp only [Option.map_some'] at h
        have hj := ih j hr
        injection h with h2
        simp only [List.length_cons]
        omega
    · rw [if_neg he] at h
      injection h with h2
      simp only [List.length_cons]
      omega

theorem bestAvailablePriority_lt_length (ps : List HostSet) (hne : ps ≠ []) :
    bestAvailablePriority ps < ps.length := by
  unfold bestAvailablePriority
  cases h : bestAvailableAux ps with
  | none =>
    simp only [Option.getD_none]
    exact List.length_pos.mpr hne
  | some i => simpa using bestAvailableAux_lt_length ps i h

theorem bestAvailableHostSet_mem (ps : List HostSet) (hne : ps ≠ []) :
    bestAvailableHostSet ps ∈ ps :=
  list_getD_mem _ _ _ (bestAvailablePriority_lt_length ps hne)

theorem tryChooseLocalLocalityHosts_subset (hs : HostSet) (lptr : Nat) (caps : List Nat)
    (st : ClusterStats) (r : Nat → Nat) (k : Nat) (hwf : HostSetWF hs) :
    ∀ x ∈ (tryChooseLocalLocalityHosts hs lptr caps st r k).1, x ∈ hs.hosts := by
  intro x hx
  unfold tryChooseLocalLocalityHosts at hx
  split at hx
  · obtain ⟨l, hl, hxl⟩ := mem_of_mem_getD _ _ _ hx
    exact hwf.1 x (hwf.2 l hl x hxl)
  · split at hx
    · exact hwf.1 x hx
    · obtain ⟨l, hl, hxl⟩ := mem_of_mem_getD _ _ _ hx
      exact hwf.1 x (hwf.2 l hl x hxl)

theorem hostsToUse_subset (ps : List HostSet) (states : List LocalityRoutingState)
    (rt : Runtime) (st : ClusterStats) (r : Nat → Nat) (k : Nat)
    (hwf : HostSetWF (bestAvailableHostSet ps)) :
    ∀ x ∈ (hostsToUse ps states rt st r k).1, x ∈ (bestAvailableHostSet ps).hosts := by
  intro x hx
  unfold hostsToUse at hx
  split at hx
  · simp at hx
  · split at hx
    · exact hx
    · split at hx
      · exact hwf.1 x hx
      · split at hx
        · exact hwf.1 x hx
        · obtain ⟨l, hl, hxl⟩ := mem_of_mem_getD _ _ _ hx
          exact hwf.1 x (hwf.2 l hl x hxl)
      · split at hx
        · exact hwf.1 x hx
        · exact tryChooseLocalLocalityHosts_subset _ _ _ _ _ _ hwf x hx

theorem hostsToUse_mem_some_hostset (ps : List HostSet) (states : List LocalityRoutingState)
    (rt : Runtime) (st : ClusterStats) (r : Nat → Nat) (k : Nat)
    (hwf : ∀ hs ∈ ps, HostSetWF hs) :
    ∀ x ∈ (hostsToUse ps states rt st r k).1, ∃ hs, hs ∈ ps ∧ x ∈ hs.hosts := by
  intro x hx
  by_cases hps : ps = []
  · subst hps
    have hd : (bestAvailableHostSet ([] : List HostSet)).hosts = [] := rfl
    have hsub := hostsToUse_subset [] states rt st r k
      (by decide : HostSetWF (bestAvailableHostSet ([] : List HostSet))) x hx
    rw [hd] at hsub
    simp at hsub
  · have hbwf : HostSetWF (bestAvailableHostSet ps) := hwf _ (bestAvailableHostSet_mem ps hps)
    exact ⟨bestAvailableHostSet ps, bestAvailableHostSet_mem ps hps,
      hostsToUse_subset ps states rt st r k hbwf x hx⟩

theorem rrChooseHost_mem (ps : List HostSet) (states : List LocalityRoutingState)
    (rt : Runtime) (st : ClusterStats) (r : Nat → Nat) (k : Nat) (rr : Nat) (h : Host) :
    (rrChooseHost ps states rt st r k rr).1 = some h →
      h ∈ (hostsToUse ps states rt st r k).1 := by
  intro hres
  unfold rrChooseHost at hres
  rcases hpool : hostsToUse ps states rt st r k with ⟨list, st1, k1⟩
  rw [hpool] at hres
  by_cases hl : list.length = 0
  · simp [hl] at hres
  · simp only [hl, if_false, if_neg] at hres
    have := list_getD_mem list (rr % list.length) default
      (Nat.mod_lt _ (Nat.pos_of_ne_zero hl))
    injection hres with h2
    rw [← h2]
    simpa [hpool] using this

theorem lrSelect_mem (list : List Host) (mhw : Nat) (rt : Runtime) (r : Nat → Nat)
    (k : Nat) (s : LRState) (h : Host) :
    (lrSelect list mhw rt r k s).1 = some h → h ∈ list := by
  intro hres
  unfold lrSelect at hres
  split at hres
  · simp at hres
  · split at hres
    · have h1 := list_getD_mem list (r k % list.length) default
        (Nat.mod_lt _ (Nat.pos_of_ne_zero (by assumption)))
      have h2 := list_getD_mem list (r (k + 1) % list.length) default
        (Nat.mod_lt _ (Nat.pos_of_ne_zero (by assumption)))
      injection hres with h3
      rw [← h3]
      split <;> assumption
    · split at hres
      · rename_i h0 hcond
        split at hres
        · injection hres with h3
          rw [← h3]
          rename_i hand
          exact hand.2
        · injection hres with h3
          rw [← h3]
          exact list_getD_mem list _ default
            (Nat.mod_lt _ (Nat.pos_of_ne_zero (by assumption)))
      · injection hres with h3
        rw [← h3]
        exact list_getD_mem list _ default
          (Nat.mod_lt _ (Nat.pos_of_ne_zero (by assumption)))

theorem lrChooseHost_mem (ps : List HostSet) (states : List LocalityRoutingState)
    (rt : Runtime) (st : ClusterStats) (r : Nat → Nat) (k : Nat) (s : LRState) (h : Host) :
    (lrChooseHost ps states rt st r k s).1 = some h →
      h ∈ (hostsToUse ps states rt st r k).1 := by
  intro hres
  unfold lrChooseHost at hres
  rcases hpool : hostsToUse ps states rt st r k with ⟨list, st1, k1⟩
  rw [hpool] at hres
  dsimp only at hres
  rcases hsel : lrSelect list st1.max_host_weight rt r k1 s with ⟨res, s1, k2⟩
  rw [hsel] at hres
  dsimp only at hres
  have hm := lrSelect_mem list st1.max_host_weight rt r k1 s h (by rw [hsel]; exact hres)
  simp only [hpool]
  exact hm

theorem randomChooseHost_mem (ps : List HostSet) (states : List LocalityRoutingState)
    (rt : Runtime) (st : ClusterStats) (r : Nat → Nat) (k : Nat) (h : Host) :
    (randomChooseHost ps states rt st r k).1 = some h →
      h ∈ (hostsToUse ps states rt st r k).1 := by
  intro hres
  unfold randomChooseHost at hres
  rcases hpool : hostsToUse ps states rt st r k with ⟨list, st1, k1⟩
  rw [hpool] at hres
  by_cases hl : list.length = 0
  · simp [hl] at hres
  · simp only [hl, if_false, if_neg] at hres
    injection hres with h2
    rw [← h2]
    simpa [hpool] using list_getD_mem list (r k1 % list.length) default
      (Nat.mod_lt _ (Nat.pos_of_ne_zero hl))

theorem hostsToUse_no_locality (ps : List HostSet) (states : List LocalityRoutingState)
    (rt : Runtime) (st : ClusterStats) (r : Nat → Nat)
    (hh : (bestAvailableHostSet ps).hosts ≠ [])
    (hnp : isGlobalPanic (bestAvailableHostSet ps) rt = false)
    (hst : states.getD (bestAvailablePriority ps) LocalityRoutingState.NoLocalityRouting =
      LocalityRoutingState.NoLocalityRouting) :
    ∀ k : Nat, hostsToUse ps states rt st r k =
      ((bestAvailableHostSet ps).healthy_hosts, st, k) := by
  intro k
  unfold hostsToUse
  rw [hst]
  simp [List.isEmpty_iff, hh, hnp]

theorem rrChooseHost_eq (ps : List HostSet) (states : List LocalityRoutingState)
    (rt : Runtime) (st : ClusterStats) (r : Nat → Nat) (k : Nat)
    (list : List Host) (st1 : ClusterStats) (k1 : Nat)
    (hpool : hostsToUse ps states rt st r k = (list, st1, k1)) (hne : list ≠ [])
    (rr : Nat) :
    rrChooseHost ps states rt st r k rr =
      (some (list.getD (rr % list.length) default), st1, k1, rr + 1) := by
  unfold rrChooseHost
  rw [hpool]
  dsimp only
  rw [if_neg fun h0 => hne (List.length_eq_zero.mp h0)]

theorem rrRun_stable (ps : List HostSet) (states : List LocalityRoutingState) (rt : Runtime)
    (st : ClusterStats) (r : Nat → Nat) (list : List Host)
    (hstable : ∀ k0 : Nat, hostsToUse ps states rt st r k0 = (list, st, k0))
    (hne : list ≠ []) :
    ∀ n rr0 k0 : Nat, rrRun n ps states rt st r k0 rr0 =
      ((List.range n).map fun i => some (list.getD ((rr0 + i) % list.length) default),
       st, k0, rr0 + n) := by
  intro n
  induction n with
  | zero => intro rr0 k0; simp [rrRun]
  | succ n ih =>
    intro rr0 k0
    have h1 := rrChooseHost_eq ps states rt st r k0 list st k0 (hstable k0) hne rr0
    unfold rrRun
    rw [h1]
    dsimp only
    rw [ih (rr0 + 1) k0]
    have hfun : ((fun i => some (list.getD ((rr0 + i) % list.length) (default : Host))) ∘
        (· + 1)) = fun i => some (list.getD ((rr0 + 1 + i) % list.length) (default : Host)) := by
      funext i
      simp only [Function.comp]
      have hidx : rr0 + (i + 1) = rr0 + 1 + i := by omega
      rw [hidx]
    simp only [Prod.mk.injEq]
    refine ⟨?_, trivial, trivial, by omega⟩
    rw [List.range_succ_eq_map, List.map_cons, List.map_map, hfun]
    simp

theorem lrSelect_sticky (list : List Host) (mhw : Nat) (rt : Runtime) (r : Nat → Nat)
    (k : Nat) (h : Host) (m : Nat)
    (hmode : ¬(mhw ≤ 1 ∨ getInteger rt.weight_enabled 1 = 0))
    (hm : 0 < m) (hmem : h ∈ list) :
    lrSelect list mhw rt r k ⟨some h, m⟩ = (some h, ⟨some h, m - 1⟩, k) := by
  have hne : list.length ≠ 0 := fun h0 => by
    rw [List.length_eq_zero.mp h0] at hmem
    exact List.not_mem_nil h hmem
  unfold lrSelect
  rw [if_neg hne, if_neg hmode]
  dsimp only
  rw [if_pos ⟨hm, hmem⟩]

theorem lrSelect_fresh (list : List Host) (mhw : Nat) (rt : Runtime) (r : Nat → Nat)
    (k : Nat)
    (hmode : ¬(mhw ≤ 1 ∨ getInteger rt.weight_enabled 1 = 0))
    (hne : list ≠ []) :
    lrSelect list mhw rt r k ⟨none, 0⟩ =
      (some (list.getD (r k % list.length) default),
       ⟨some (list.getD (r k % list.length) default),
        (list.getD (r k % list.length) default).weight - 1⟩, k + 1) := by
  unfold lrSelect
  rw [if_neg fun h0 => hne (List.length_eq_zero.mp h0), if_neg hmode]

theorem lrRun_sticky (ps : List HostSet) (states : List LocalityRoutingState) (rt : Runtime)
    (st : ClusterStats) (r : Nat → Nat) (list : List Host) (h : Host)
    (hstable : ∀ k0 : Nat, hostsToUse ps states rt st r k0 = (list, st, k0))
    (hmode : ¬(st.max_host_weight ≤ 1 ∨ getInteger rt.weight_enabled 1 = 0))
    (hmem : h ∈ list) :
    ∀ n m k0 : Nat, n ≤ m →
      lrRun n ps states rt st r k0 ⟨some h, m⟩ =
        (List.replicate n (some h), st, k0, ⟨some h, m - n⟩) := by
  intro n
  induction n with
  | zero => intro m k0 _; simp [lrRun]
  | succ n ih =>
    intro m k0 hnm
    have hm : 0 < m := by omega
    unfold lrRun lrChooseHost
    rw [hstable k0]
    dsimp only
    rw [lrSelect_sticky list st.max_host_weight rt r k0 h m hmode hm hmem]
    dsimp only
    rw [ih (m - 1) k0 (by omega)]
    simp only [Prod.mk.injEq, List.replicate_succ]
    refine ⟨trivial, trivial, trivial, ?_⟩
    have : m - 1 - n = m - (n + 1) := by omega
    rw [this]

/-! The claim theorems. -/

/-- C2: `isGlobalPanic(host_set, runtime)` returns true if and only if the host
set is non-empty and the truncating quantity `100 * |healthy_hosts| / |hosts|`
is strictly below the runtime value of `upstream.healthy_panic_threshold`
(default 50, clamped to [0, 100]); in particular a host set with zero hosts is
never in panic. -/
theorem isGlobalPanic_spec (hs : HostSet) (rt : Runtime) :
    (isGlobalPanic hs rt = true ↔
      0 < hs.hosts.length ∧
        100 * hs.healthy_hosts.length / hs.hosts.length <
          min 100 (getInteger rt.healthy_panic_threshold 50)) ∧
    (hs.hosts = [] → isGlobalPanic hs rt = false) := by
  constructor
  · unfold isGlobalPanic
    simp [Nat.pos_iff_ne_zero]
  · intro h
    unfold isGlobalPanic
    simp [h]

/-- C3: whenever the chosen host set has non-empty hosts and is in global
panic, the candidate pool of every `chooseHost` call is the full `hosts`
vector (unhealthy hosts included) and `lb_healthy_panic` is incremented by
exactly one per call, for all three policies. -/
theorem hostsToUse_panic_mode (ps : List HostSet) (states : List LocalityRoutingState)
    (rt : Runtime) (st : ClusterStats) (r : Nat → Nat) (k rr : Nat) (s : LRState)
    (hne : (bestAvailableHostSet ps).hosts ≠ [])
    (hpanic : isGlobalPanic (bestAvailableHostSet ps) rt = true) :
    hostsToUse ps states rt st r k =
      ((bestAvailableHostSet ps).hosts,
       { st with lb_healthy_panic := st.lb_healthy_panic + 1 }, k) ∧
    (rrChooseHost ps states rt st r k rr).2.1 =
      { st with lb_healthy_panic := st.lb_healthy_panic + 1 } ∧
    (lrChooseHost ps states rt st r k s).2.1 =
      { st with lb_healthy_panic := st.lb_healthy_panic + 1 } ∧
    (randomChooseHost ps states rt st r k).2.1 =
      { st with lb_healthy_panic := st.lb_healthy_panic + 1 } := by
  have hmain : hostsToUse ps states rt st r k =
      ((bestAvailableHostSet ps).hosts,
       { st with lb_healthy_panic := st.lb_healthy_panic + 1 }, k) := by
    unfold hostsToUse
    simp [List.isEmpty_iff, hne, hpanic]
  refine ⟨hmain, ?_, ?_, ?_⟩
  · unfold rrChooseHost
    rw [hmain]
    dsimp only
    split <;> rfl
  · unfold lrChooseHost
    rw [hmain]
  · unfold randomChooseHost
    rw [hmain]
    dsimp only
    split <;> rfl

/-- C4: each `RoundRobinLoadBalancer::chooseHost` call on a non-empty candidate
list returns `list[rr_index mod |list|]` and increments `rr_index` by one;
the counter is policy-local state that no membership or pool change touches,
so with a stable candidate list the `n` calls starting from a fresh counter
return the rotation `list[0], list[1 mod |list|], ...`. -/
theorem rr_round_robin_rotation (ps : List HostSet) (states : List LocalityRoutingState)
    (rt : Runtime) (st : ClusterStats) (r : Nat → Nat) (k : Nat)
    (list : List Host) (st1 : ClusterStats) (k1 : Nat)
    (hpool : hostsToUse ps states rt st r k = (list, st1, k1))
    (hne : list ≠ []) :
    (∀ rr : Nat, rrChooseHost ps states rt st r k rr =
      (some (list.getD (rr % list.length) default), st1, k1, rr + 1)) ∧
    ((∀ k0 : Nat, hostsToUse ps states rt st r k0 = (list, st, k0)) →
      ∀ n : Nat, rrRun n ps states rt st r k 0 =
        ((List.range n).map fun i => some (list.getD (i % list.length) default),
         st, k, n)) := by
  constructor
  · exact fun rr => rrChooseHost_eq ps states rt st r k list st1 k1 hpool hne rr
  · intro hstable n
    have h := rrRun_stable ps states rt st r list hstable hne n 0 k
    rw [h]
    simp

/-- C5 (amended): in equal-weight mode — entered exactly when
`max_host_weight ≤ 1` or runtime `upstream.weight_enabled` is 0 —
`LeastRequestLoadBalancer::chooseHost` on a candidate list of at least two
hosts draws two independent uniform indices (collisions permitted, not
resampled), compares the two hosts' active-request counters, and returns the
host with the strictly smaller count; when the two counts are equal the
second-drawn host is returned (not the first-drawn, as the spec claims). -/
theorem lr_p2c_choice (ps : List HostSet) (states : List LocalityRoutingState)
    (rt : Runtime) (st : ClusterStats) (r : Nat → Nat) (k : Nat) (s : LRState)
    (list : List Host) (st1 : ClusterStats) (k1 : Nat)
    (hpool : hostsToUse ps states rt st r k = (list, st1, k1))
    (hmode : st1.max_host_weight ≤ 1 ∨ getInteger rt.weight_enabled 1 = 0)
    (hlen : 2 ≤ list.length) :
    lrChooseHost ps states rt st r k s =
      (some (if (list.getD (r k1 % list.length) default).active <
                (list.getD (r (k1 + 1) % list.length) default).active
             then list.getD (r k1 % list.length) default
             else list.getD (r (k1 + 1) % list.length) default),
       st1, k1 + 2, s) ∧
    ((list.getD (r k1 % list.length) default).active =
        (list.getD (r (k1 + 1) % list.length) default).active →
      (lrChooseHost ps states rt st r k s).1 =
        some (list.getD (r (k1 + 1) % list.length) default)) := by
  have hne0 : ¬list.length = 0 := by omega
  have hstep : lrChooseHost ps states rt st r k s =
      (some (if (list.getD (r k1 % list.length) default).active <
                (list.getD (r (k1 + 1) % list.length) default).active
             then list.getD (r k1 % list.length) default
             else list.getD (r (k1 + 1) % list.length) default),
       st1, k1 + 2, s) := by
    unfold lrChooseHost
    rw [hpool]
    dsimp only
    unfold lrSelect
    rw [if_neg hne0, if_pos hmode]
  refine ⟨hstep, fun heq => ?_⟩
  rw [hstep]
  dsimp only
  rw [if_neg (by rw [heq]; exact lt_irrefl _)]

/-- C10: in equal-weight mode a candidate list with exactly one host still
consumes two draws from the random generator before that host is returned —
the single-element case does not skip the two-choice sampling (the random
cursor advances from `k1` to `k1 + 2`). -/
theorem lr_single_host_two_draws (ps : List HostSet) (states : List LocalityRoutingState)
    (rt : Runtime) (st : ClusterStats) (r : Nat → Nat) (k : Nat) (s : LRState)
    (h : Host) (st1 : ClusterStats) (k1 : Nat)
    (hpool : hostsToUse ps states rt st r k = ([h], st1, k1))
    (hmode : st1.max_host_weight ≤ 1 ∨ getInteger rt.weight_enabled 1 = 0) :
    lrChooseHost ps states rt st r k s = (some h, st1, k1 + 2, s) := by
  unfold lrChooseHost
  rw [hpool]
  dsimp only
  unfold lrSelect
  rw [if_neg (by simp), if_pos hmode]
  simp [Nat.mod_one]

/-- C6: in weighted mode (`max_host_weight > 1` and `upstream.weight_enabled`
non-zero), the host drawn by `LeastRequestLoadBalancer::chooseHost` — of
weight `w` — is returned on the `w - 1` following calls as well, `w`
consecutive returns in total, with the random cursor advancing only once for
the whole run; after a membership-change callback (which clears `last_host`
and `hits_left`) the next call performs a fresh uniform draw. -/
theorem lr_weight_stickiness (ps : List HostSet) (states : List LocalityRoutingState)
    (rt : Runtime) (st : ClusterStats) (r : Nat → Nat) (k : Nat) (list : List Host)
    (hh : (bestAvailableHostSet ps).hosts ≠ [])
    (hnp : isGlobalPanic (bestAvailableHostSet ps) rt = false)
    (hst : states.getD (bestAvailablePriority ps) LocalityRoutingState.NoLocalityRouting =
      LocalityRoutingState.NoLocalityRouting)
    (hlist : (bestAvailableHostSet ps).healthy_hosts = list)
    (hmode : 1 < st.max_host_weight ∧ getInteger rt.weight_enabled 1 ≠ 0)
    (hne : list ≠ [])
    (hw : 1 ≤ (list.getD (r k % list.length) default).weight) :
    lrRun (list.getD (r k % list.length) default).weight ps states rt st r k ⟨none, 0⟩ =
      (List.replicate (list.getD (r k % list.length) default).weight
        (some (list.getD (r k % list.length) default)),
       st, k + 1, ⟨some (list.getD (r k % list.length) default), 0⟩) ∧
    ∀ s : LRState, lrChooseHost ps states rt st r k (lrMembershipChange s) =
      (some (list.getD (r k % list.length) default), st, k + 1,
       ⟨some (list.getD (r k % list.length) default),
        (list.getD (r k % list.length) default).weight - 1⟩) := by
  have hstable : ∀ k0 : Nat, hostsToUse ps states rt st r k0 = (list, st, k0) := by
    intro k0
    rw [← hlist]
    exact hostsToUse_no_locality ps states rt st r hh hnp hst k0
  have hmode' : ¬(st.max_host_weight ≤ 1 ∨ getInteger rt.weight_enabled 1 = 0) := by
    rintro (h1 | h2)
    · omega
    · exact hmode.2 h2
  set c := list.getD (r k % list.length) default with hc
  have hmem : c ∈ list :=
    list_getD_mem list _ default
      (Nat.mod_lt _ (List.length_pos.mpr hne))
  have hfirst : lrChooseHost ps states rt st r k ⟨none, 0⟩ =
      (some c, st, k + 1, ⟨some c, c.weight - 1⟩) := by
    unfold lrChooseHost
    rw [hstable k]
    dsimp only
    rw [lrSelect_fresh list st.max_host_weight rt r k hmode' hne]
  constructor
  · obtain ⟨w', hw'⟩ : ∃ w', c.weight = w' + 1 := ⟨c.weight - 1, by omega⟩
    rw [hw']
    unfold lrRun
    rw [hfirst]
    dsimp only
    have hsub : c.weight - 1 = w' := by omega
    rw [hsub, lrRun_sticky ps states rt st r list c hstable hmode' hmem w' w' (k + 1) le_rfl]
    simp [List.replicate_succ, hw']
  · intro s
    exact hfirst

/-- C1: when some priority `p` has healthy hosts and all lower-numbered
priorities have none, the best available priority is `p` and every policy's
`chooseHost` draws its candidate from the host set at priority `p`; when no
priority has any healthy host the candidate host set is the one at priority 0;
and as soon as a membership change leaves priority 0 with a healthy host, the
very next call selects from priority 0 again. -/
theorem priority_failover_selection (ps : List HostSet) (states : List LocalityRoutingState)
    (rt : Runtime) (st : ClusterStats) (r : Nat → Nat) (k rr : Nat) (s : LRState)
    (hwf : ∀ hs ∈ ps, HostSetWF hs) :
    (∀ p : Nat, p < ps.length → (ps.getD p default).healthy_hosts ≠ [] →
      (∀ q : Nat, q < p → (ps.getD q default).healthy_hosts = []) →
      bestAvailablePriority ps = p ∧
      (∀ x ∈ (hostsToUse ps states rt st r k).1, x ∈ (ps.getD p default).hosts) ∧
      (∀ h : Host, (rrChooseHost ps states rt st r k rr).1 = some h →
        h ∈ (ps.getD p default).hosts) ∧
      (∀ h : Host, (lrChooseHost ps states rt st r k s).1 = some h →
        h ∈ (ps.getD p default).hosts) ∧
      (∀ h : Host, (randomChooseHost ps states rt st r k).1 = some h →
        h ∈ (ps.getD p default).hosts)) ∧
    ((∀ hs ∈ ps, hs.healthy_hosts = []) →
      bestAvailablePriority ps = 0 ∧
      ∀ x ∈ (hostsToUse ps states rt st r k).1, x ∈ (ps.getD 0 default).hosts) ∧
    ((ps.getD 0 default).healthy_hosts ≠ [] → bestAvailablePriority ps = 0) := by
  have hwfd : ∀ i : Nat, HostSetWF (ps.getD i default) := by
    intro i
    by_cases hi : i < ps.length
    · exact hwf _ (list_getD_mem _ _ _ hi)
    · have : ps.getD i default = default := by
        rw [List.getD_eq_getD_get?, List.get?_eq_none.mpr (by omega)]
        rfl
      rw [this]
      decide
  refine ⟨?_, ?_, ?_⟩
  · intro p hp hne hz
    have hb : bestAvailablePriority ps = p := by
      unfold bestAvailablePriority
      rw [bestAvailableAux_eq_of_first_healthy ps p hp hne hz]
      rfl
    have hset : bestAvailableHostSet ps = ps.getD p default := by
      unfold bestAvailableHostSet
      rw [hb]
    have hsub := hostsToUse_subset ps states rt st r k (hset ▸ hwfd p)
    rw [hset] at hsub
    exact ⟨hb, hsub,
      fun h hh => hsub h (rrChooseHost_mem ps states rt st r k rr h hh),
      fun h hh => hsub h (lrChooseHost_mem ps states rt st r k s h hh),
      fun h hh => hsub h (randomChooseHost_mem ps states rt st r k h hh)⟩
  · intro hall
    have hb : bestAvailablePriority ps = 0 := by
      unfold bestAvailablePriority
      rw [bestAvailableAux_eq_none_of_all_unhealthy ps hall]
      rfl
    have hset : bestAvailableHostSet ps = ps.getD 0 default := by
      unfold bestAvailableHostSet
      rw [hb]
    have hsub := hostsToUse_subset ps states rt st r k (hset ▸ hwfd 0)
    rw [hset] at hsub
    exact ⟨hb, hsub⟩
  · intro h0
    have hp : 0 < ps.length := by
      by_contra hlen
      have : ps = [] := by
        cases ps with
        | nil => rfl
        | cons a l => simp at hlen
      rw [this] at h0
      exact h0 rfl
    have hb := bestAvailableAux_eq_of_first_healthy ps 0 hp h0 (fun q hq => absurd hq (by omega))
    unfold bestAvailablePriority
    rw [hb]
    rfl

/-- C8: for every priority-set state satisfying the documented host-set
invariants and every policy (round-robin, least-request, random),
`chooseHost` returns either the no-host sentinel or a host currently present
in some host set of the priority set; in particular when every host set is
empty it returns the sentinel. -/
theorem chooseHost_closure (ps : List HostSet) (states : List LocalityRoutingState)
    (rt : Runtime) (st : ClusterStats) (r : Nat → Nat) (k rr : Nat) (s : LRState)
    (hwf : ∀ hs ∈ ps, HostSetWF hs) :
    inSomeHostSet (rrChooseHost ps states rt st r k rr).1 ps ∧
    inSomeHostSet (lrChooseHost ps states rt st r k s).1 ps ∧
    inSomeHostSet (randomChooseHost ps states rt st r k).1 ps := by
  refine ⟨?_, ?_, ?_⟩
  · cases hres : (rrChooseHost ps states rt st r k rr).1 with
    | none => trivial
    | some h =>
      exact hostsToUse_mem_some_hostset ps states rt st r k hwf h
        (rrChooseHost_mem ps states rt st r k rr h hres)
  · cases hres : (lrChooseHost ps states rt st r k s).1 with
    | none => trivial
    | some h =>
      exact hostsToUse_mem_some_hostset ps states rt st r k hwf h
        (lrChooseHost_mem ps states rt st r k s h hres)
  · cases hres : (randomChooseHost ps states rt st r k).1 with
    | none => trivial
    | some h =>
      exact hostsToUse_mem_some_hostset ps states rt st r k hwf h
        (randomChooseHost_mem ps states rt st r k h hres)

theorem buildSubsetKeys_eq : ∀ l : List LbSubsetSelector,
    buildSubsetKeys l = (l.filter fun s => !s.keys.isEmpty).map fun s => s.keys.toFinset := by
  intro l
  induction l with
  | nil => rfl
  | cons s rest ih =>
    by_cases hs : s.keys.isEmpty
    · simp [buildSubsetKeys, hs, List.filter_cons, ih]
    · simp [buildSubsetKeys, hs, List.filter_cons, ih]

/-- C9: a `LoadBalancerSubsetInfoImpl` built from a subset configuration has
`isEnabled()` true iff the configuration has at least one selector,
`fallbackPolicy()` and `defaultSubset()` mirror the configuration verbatim,
and `subsetKeys()` holds, in selector order, one set of keys per selector with
a non-empty key list, skipping empty selectors; the embedding is a pure value,
so every accessor yields the same value on every call after construction. -/
theorem subset_info_accessors (cfg : LbSubsetConfig) :
    ((loadBalancerSubsetInfoImpl cfg).isEnabled = true ↔ cfg.subset_selectors ≠ []) ∧
    (loadBalancerSubsetInfoImpl cfg).fallbackPolicy = cfg.fallback_policy ∧
    (loadBalancerSubsetInfoImpl cfg).defaultSubset = cfg.default_subset ∧
    (loadBalancerSubsetInfoImpl cfg).subsetKeys =
      (cfg.subset_selectors.filter fun s => !s.keys.isEmpty).map fun s => s.keys.toFinset := by
  refine ⟨?_, rfl, rfl, buildSubsetKeys_eq cfg.subset_selectors⟩
  simp [loadBalancerSubsetInfoImpl, LoadBalancerSubsetInfoImpl.isEnabled, List.isEmpty_iff]

/-- C7 (amended): with upstream healthy hosts split (1, 2, 2) across three
localities, local hosts split (1, 1, 1), `min_cluster_size` 5 and the
zone-routing gate on, the per-priority state is `LocalityResidual` with
`local_percent_to_route` 6000 and remote residuals
`residual_i = max(0, upstream_pct[i] - local_pct[i])` accumulated as a prefix
sum — here `[667, 1334]`, from upstream percentages `[2000, 4000, 4000]` and
local percentages `[3333, 3333, 3333]`; a first draw of 100 (below
`local_percent_to_route`) returns the local-locality host and makes
`lb_zone_routing_sampled` equal 1, and subsequent draws of 9999 then 2 route
cross-zone to the remote locality found by searching the cumulative
residuals, returning host[1] of the second locality and making
`lb_zone_routing_cross_zone` equal 1. -/
theorem zone_routing_small_zone :
    calculateLocalityPercentage tUpstreamSmallZone.healthy_hosts_per_locality =
      [2000, 4000, 4000] ∧
    calculateLocalityPercentage tLocalSmallZone.healthy_hosts_per_locality =
      [3333, 3333, 3333] ∧
    regenerateAll [tUpstreamSmallZone] (some tLocalSmallZone) tZoneRuntime tStats =
      ([LocalityRoutingState.LocalityResidual 6000 [667, 1334]], tStats) ∧
    ([667, 1334] : List Nat) = accumulateResiduals 0 [4000 - 3333, 4000 - 3333] ∧
    rrChooseHost [tUpstreamSmallZone]
        [LocalityRoutingState.LocalityResidual 6000 [667, 1334]]
        tZoneRuntime tStats tRandSmallZone 0 0 =
      (some (tHost 81), ⟨0, 0, 0, 0, 0, 1, 0, 0, 1⟩, 1, 1) ∧
    rrChooseHost [tUpstreamSmallZone]
        [LocalityRoutingState.LocalityResidual 6000 [667, 1334]]
        tZoneRuntime ⟨0, 0, 0, 0, 0, 1, 0, 0, 1⟩ tRandSmallZone 1 1 =
      (some (tHost 82), ⟨0, 0, 0, 0, 0, 1, 1, 0, 1⟩, 3, 2) ∧
    some (tHost 82) =
      some ((tUpstreamSmallZone.healthy_hosts_per_locality.getD 1 []).getD 1 default) := by
  decide

/-- C7 counterexample: at the claim's own scenario — upstream split (1, 2, 2),
local split (1, 1, 1), `min_cluster_size` 5, gate on — the locality state the
balancer computes carries the cumulative residual vector `[667, 1334]`, while
the claim's formula `residual_i = max(0, upstream_pct[i] -
local_pct[i] * upstream_pct[0] / local_pct[0])` yields `[2000, 4000]`; the
claim's description of the per-priority state is therefore false (the
repository's `LowPrecisionForDistribution` test forces the
`upstream_pct[i] - local_pct[i]` form). -/
theorem zone_routing_small_zone_cex :
    (regenerateAll [tUpstreamSmallZone] (some tLocalSmallZone) tZoneRuntime tStats).1 =
      [LocalityRoutingState.LocalityResidual 6000 [667, 1334]] ∧
    specResidualCapacity [2000, 4000, 4000] [3333, 3333, 3333] = [2000, 4000] ∧
    ¬(([667, 1334] : List Nat) = [2000, 4000]) := by
  decide

/-- C5 counterexample: two healthy hosts with equal active-request counts;
equal-weight mode with draws 2 then 3 picks indices 0 then 1, and
`chooseHost` returns host 81 — the second-drawn host — not the first-drawn
host 80 that the claim's tie-break ("the first-drawn host is returned")
demands. -/
theorem lr_p2c_tie_cex :
    (hostsToUse [tPairSet] [] tRuntime tStats (fun n => [2, 3].getD n 0) 0).1 =
      [tHost 80, tHost 81] ∧
    [tHost 80, tHost 81].getD (2 % 2) default = tHost 80 ∧
    (tHost 80).active = (tHost 81).active ∧
    (lrChooseHost [tPairSet] [] tRuntime tStats (fun n => [2, 3].getD n 0) 0 ⟨none, 0⟩).1 =
      some (tHost 81) ∧
    ¬((lrChooseHost [tPairSet] [] tRuntime tStats (fun n => [2, 3].getD n 0) 0 ⟨none, 0⟩).1 =
      some (tHost 80)) := by
  decide

/-- Witness for C3: the MaxUnhealthyPanic scenario — six hosts of which two
are healthy under the default 50 percent threshold — is in panic, the
candidate pool is the full host vector with `lb_healthy_panic` bumped once,
and three successive round-robin calls return hosts 0, 1, 2 with the counter
reaching 3. -/
theorem hostsToUse_panic_mode_w :
    ((bestAvailableHostSet [tPanicSet]).hosts ≠ [] ∧
      isGlobalPanic (bestAvailableHostSet [tPanicSet]) tRuntime = true) ∧
    hostsToUse [tPanicSet] [] tRuntime tStats (fun _ => 0) 0 =
      ([tHost 80, tHost 81, tHost 82, tHost 83, tHost 84, tHost 85],
       ⟨1, 0, 0, 0, 0, 0, 0, 0, 1⟩, 0) ∧
    rrRun 3 [tPanicSet] [] tRuntime tStats (fun _ => 0) 0 0 =
      ([some (tHost 80), some (tHost 81), some (tHost 82)],
       ⟨3, 0, 0, 0, 0, 0, 0, 0, 1⟩, 0, 3) :=
  ⟨⟨by decide, by decide⟩,
   ((hostsToUse_panic_mode [tPanicSet] [] tRuntime tStats (fun _ => 0) 0 0 ⟨none, 0⟩
      (by decide) (by decide)).1).trans (by decide),
   by decide⟩

/-- Witness for C4: with the two-host pool of the Normal test, a call with
`rr_index` 5 returns host 81 and advances the counter to 6, and four calls
from a fresh counter return the rotation host 80, 81, 80, 81. -/
theorem rr_round_robin_rotation_w :
    (hostsToUse [tPairSet] [] tRuntime tStats (fun _ => 0) 0 =
      ([tHost 80, tHost 81], tStats, 0) ∧ ([tHost 80, tHost 81] : List Host) ≠ []) ∧
    rrChooseHost [tPairSet] [] tRuntime tStats (fun _ => 0) 0 5 =
      (some (tHost 81), tStats, 0, 6) ∧
    rrRun 4 [tPairSet] [] tRuntime tStats (fun _ => 0) 0 0 =
      ([some (tHost 80), some (tHost 81), some (tHost 80), some (tHost 81)],
       tStats, 0, 4) :=
  ⟨⟨by decide, by decide⟩,
   ((rr_round_robin_rotation [tPairSet] [] tRuntime tStats (fun _ => 0) 0
      [tHost 80, tHost 81] tStats 0 (by decide) (by decide)).1 5).trans (by decide),
   ((rr_round_robin_rotation [tPairSet] [] tRuntime tStats (fun _ => 0) 0
      [tHost 80, tHost 81] tStats 0 (by decide) (by decide)).2 (fun _ => rfl) 4).trans
     (by decide)⟩

/-- Witness for C5 (amended): hosts with active-request counts (1, 2), draws
0 then 1 in equal-weight mode: the host with the strictly smaller count (host
80) is returned and the random cursor advances by two. -/
theorem lr_p2c_choice_w :
    lrChooseHost [tPairActiveSet] [] tRuntime tStats (fun n => [0, 1].getD n 0) 0 ⟨none, 0⟩ =
      (some ⟨80, 1, 1⟩, tStats, 2, ⟨none, 0⟩) :=
  ((lr_p2c_choice [tPairActiveSet] [] tRuntime tStats (fun n => [0, 1].getD n 0) 0 ⟨none, 0⟩
      [⟨80, 1, 1⟩, ⟨81, 1, 2⟩] tStats 0 (by decide) (by decide) (by decide)).1).trans
    (by decide)

/-- Witness for C10: the SingleHost scenario in equal-weight mode — one
healthy host, scripted draws 2 and 3 — returns the single host with the
random cursor advanced by two. -/
theorem lr_single_host_two_draws_w :
    lrChooseHost [tSingleSet] [] tRuntime tStats (fun n => [2, 3].getD n 0) 0 ⟨none, 0⟩ =
      (some (tHost 80), tStats, 2, ⟨none, 0⟩) :=
  (lr_single_host_two_draws [tSingleSet] [] tRuntime tStats (fun n => [2, 3].getD n 0) 0
      ⟨none, 0⟩ (tHost 80) tStats 0 (by decide) (by decide)).trans (by decide)

/-- Witness for C6: the WeightImbalance scenario — hosts of weight (1, 3),
`max_host_weight` 3, draw 1 picking the weight-3 host — returns that host on
three consecutive calls while consuming a single draw, and a call made right
after a membership-change callback performs a fresh draw. -/
theorem lr_weight_stickiness_w :
    lrRun 3 [tWeightSet] [] tRuntime tStats3 (fun n => [1, 2].getD n 0) 0 ⟨none, 0⟩ =
      ([some ⟨81, 3, 0⟩, some ⟨81, 3, 0⟩, some ⟨81, 3, 0⟩],
       tStats3, 1, ⟨some ⟨81, 3, 0⟩, 0⟩) ∧
    lrChooseHost [tWeightSet] [] tRuntime tStats3 (fun n => [1, 2].getD n 0) 0
        (lrMembershipChange ⟨some ⟨80, 1, 0⟩, 7⟩) =
      (some ⟨81, 3, 0⟩, tStats3, 1, ⟨some ⟨81, 3, 0⟩, 2⟩) :=
  by
  have h := lr_weight_stickiness [tWeightSet] [] tRuntime tStats3 (fun n => [1, 2].getD n 0) 0
    [⟨80, 1, 0⟩, ⟨81, 3, 0⟩] (by decide) (by decide) (by decide) (by decide)
    ⟨by decide, by decide⟩ (by decide) (by decide)
  exact ⟨h.1.trans (by decide), (h.2 ⟨some ⟨80, 1, 0⟩, 7⟩).trans (by decide)⟩

/-- Witness for C1: the BasicFailover priority set (priority 0 unhealthy,
priority 1 healthy) selects priority 1 and round-robin returns the priority-1
host; after restoring a healthy host at priority 0 the best available
priority is 0 again and the next call returns the priority-0 host. -/
theorem priority_failover_selection_w :
    bestAvailablePriority tFailoverPS = 1 ∧
    bestAvailablePriority tFailoverRestoredPS = 0 ∧
    (rrChooseHost tFailoverPS [] tRuntime tStats (fun _ => 0) 0 0).1 = some (tHost 82) ∧
    (rrChooseHost tFailoverRestoredPS [] tRuntime tStats (fun _ => 0) 0 0).1 =
      some (tHost 80) :=
  ⟨((priority_failover_selection tFailoverPS [] tRuntime tStats (fun _ => 0) 0 0 ⟨none, 0⟩
      (by decide)).1 1 (by decide) (by decide)
      (fun q hq => by
        have hq0 : q = 0 := by omega
        subst hq0
        decide)).1,
   (priority_failover_selection tFailoverRestoredPS [] tRuntime tStats (fun _ => 0) 0 0
      ⟨none, 0⟩ (by decide)).2.2 (by decide),
   by decide, by decide⟩

/-- Witness for C8: with a priority set holding a single empty host set,
every policy satisfies the closure property and in fact returns the no-host
sentinel. -/
theorem chooseHost_closure_w :
    (inSomeHostSet (rrChooseHost [⟨[], [], []⟩] [] tRuntime tStats (fun _ => 0) 0 0).1
        [⟨[], [], []⟩] ∧
      inSomeHostSet (lrChooseHost [⟨[], [], []⟩] [] tRuntime tStats (fun _ => 0) 0
        ⟨none, 0⟩).1 [⟨[], [], []⟩] ∧
      inSomeHostSet (randomChooseHost [⟨[], [], []⟩] [] tRuntime tStats (fun _ => 0) 0).1
        [⟨[], [], []⟩]) ∧
    (rrChooseHost [⟨[], [], []⟩] [] tRuntime tStats (fun _ => 0) 0 0).1 = none ∧
    (lrChooseHost [⟨[], [], []⟩] [] tRuntime tStats (fun _ => 0) 0 ⟨none, 0⟩).1 = none ∧
    (randomChooseHost [⟨[], [], []⟩] [] tRuntime tStats (fun _ => 0) 0).1 = none :=
  ⟨chooseHost_closure [⟨[], [], []⟩] [] tRuntime tStats (fun _ => 0) 0 0 ⟨none, 0⟩
     (by decide),
   by decide, by decide, by decide⟩

end Upstream
